import Mathlib

/-!
Verification of the wizhbt habit tracker's session lifecycle and statistics
aggregation engine against its natural-language specification.

The definitions below are a shallow embedding of the backend route handlers
(`routes/pomodoro.ts`, `routes/calendar.ts`, `routes/habits.ts`), the Prisma
migration DDL (foreign-key semantics), and the `Dashboard.tsx` streak walk.
Timestamps are modelled as `Int` milliseconds since the epoch, exactly as
JavaScript `Date.getTime()` yields; the server clock is taken to run in UTC so
that `setHours(0,0,0,0)` and `setUTCHours(0,0,0,0)` coincide as the single
normalization `midnightUTC`.  Row stores are modelled as lists in insertion
order (SQLite autoincrement ids, `createdAt` order), fallible handlers return
`Except`/`Option`.
-/

namespace WizHBT

/-- Milliseconds per calendar day. -/
def msPerDay : Int := 86400000

/-- `d.setUTCHours(0,0,0,0)` on a timestamp: truncate to the containing
UTC midnight. -/
def midnightUTC (t : Int) : Int := t - t % msPerDay

/-- Row of the `Habit` table (only the column the aggregation engine reads). -/
structure Habit where
  id : Int
deriving DecidableEq, Repr

/-- Row of the `PomodoroSession` table.  The `end` column is called `endTime`
here because `end` is reserved in Lean.  `duration` and `targetDuration` are
nullable columns, `start` defaults to the insertion time. -/
structure PomodoroSession where
  id : Int
  habitId : Option Int
  start : Int
  endTime : Option Int
  duration : Option Int
  targetDuration : Option Int
  status : String
deriving DecidableEq, Repr

/-- Row of the `CalendarEvent` table. -/
structure CalendarEvent where
  habitId : Option Int
  title : String
  date : Int
  completed : Bool
  type : String
  duration : Option Int
deriving DecidableEq, Repr

/-- Row of the `HabitStatistics` table; unique on `(habitId, date)`. -/
structure HabitStatistics where
  habitId : Int
  date : Int
  totalPomodoros : Int
  totalDuration : Int
  completedHabits : Int
  failedHabits : Int
deriving DecidableEq, Repr

/-- The database state: the four tables, each in insertion order. -/
structure DB where
  habits : List Habit
  sessions : List PomodoroSession
  events : List CalendarEvent
  stats : List HabitStatistics
deriving DecidableEq, Repr

/-- The structured errors the route handlers surface (HTTP 400/404 bodies,
plus the Prisma "record not found" rejection of an `update` on a missing id,
which the error middleware surfaces as a 500). -/
inductive ApiError where
  | sessionAlreadyActive
  | invalidDuration
  | sessionNotFound
  | sessionNotActive
deriving DecidableEq, Repr

instance {ε α : Type} [DecidableEq ε] [DecidableEq α] :
    DecidableEq (Except ε α) := fun x y =>
  match x, y with
  | .ok a, .ok b =>
      decidable_of_iff (a = b) ⟨fun h => by rw [h], fun h => by injection h⟩
  | .error a, .error b =>
      decidable_of_iff (a = b) ⟨fun h => by rw [h], fun h => by injection h⟩
  | .ok _, .error _ => isFalse (fun h => Except.noConfusion h)
  | .error _, .ok _ => isFalse (fun h => Except.noConfusion h)

/-- `prisma.pomodoroSession.findFirst({ where: { status: "active" } })`
tested for existence. -/
def hasActiveSession (db : DB) : Bool :=
  db.sessions.any (fun s => s.status == "active")

/-- SQLite autoincrement id for the next session row. -/
def nextSessionId (db : DB) : Int := Int.ofNat db.sessions.length + 1

/-- `POST /pomodoro/start` (routes/pomodoro.ts).  Checks for an active
session first, then validates `targetDuration` (minutes) against [5, 240],
then inserts a row with `status="active"`; `start` takes the DB default
`CURRENT_TIMESTAMP` (= `now`), `duration` and `end` stay NULL. -/
def startSession (db : DB) (habitId : Option Int) (targetDuration : Int)
    (now : Int) : Except ApiError (PomodoroSession × DB) :=
  if hasActiveSession db then
    .error .sessionAlreadyActive
  else if targetDuration < 5 || targetDuration > 240 then
    .error .invalidDuration
  else
    let s : PomodoroSession :=
      { id := nextSessionId db, habitId := habitId, start := now,
        endTime := none, duration := none,
        targetDuration := some (targetDuration * 60), status := "active" }
    .ok (s, { db with sessions := db.sessions ++ [s] })

/-- The empty database. -/
def emptyDB : DB := { habits := [], sessions := [], events := [], stats := [] }

/-- A database whose only session is active (used as a concrete state). -/
def dbWithActive : DB :=
  { emptyDB with sessions :=
      [{ id := 1, habitId := none, start := 0, endTime := none,
         duration := none, targetDuration := some 1500, status := "active" }] }

/-- Claim C4 (counterexample): the claim says `start` fails with
`InvalidDuration` whenever `targetMinutes` is outside [5,240], and that a
successful `start` yields `duration = 0`.  Both parts fail on the code: with
an active session present, `start(3)` fails with `SessionAlreadyActive` (the
active-session check runs before duration validation), and a successful
`start` leaves the `duration` column NULL (unset), not 0. -/
theorem C4_start_counterexample :
    startSession dbWithActive none 3 1000 = .error .sessionAlreadyActive ∧
    startSession dbWithActive none 3 1000 ≠ .error .invalidDuration ∧
    (startSession emptyDB none 25 1000).toOption.map
        (fun p => p.1.duration) = some none := by
  decide

/-- Claim C4 (amended): `start` fails with `SessionAlreadyActive` whenever
some session is active (this check takes precedence, even when the duration
is also invalid); otherwise it fails with `InvalidDuration` exactly when
`targetMinutes` is outside [5,240]; otherwise it creates and returns a
session with `status="active"`, `start=now`,
`targetDuration=targetMinutes·60`, and `duration` unset (NULL). -/
theorem C4_start_amended (db : DB) (habitId : Option Int) (tm now : Int) :
    (hasActiveSession db = true →
      startSession db habitId tm now = .error .sessionAlreadyActive) ∧
    (hasActiveSession db = false → (tm < 5 ∨ 240 < tm) →
      startSession db habitId tm now = .error .invalidDuration) ∧
    (hasActiveSession db = false → 5 ≤ tm → tm ≤ 240 →
      ∃ s db', startSession db habitId tm now = .ok (s, db') ∧
        s.status = "active" ∧ s.start = now ∧
        s.targetDuration = some (tm * 60) ∧ s.duration = none ∧ s.endTime = none ∧
        db' = { db with sessions := db.sessions ++ [s] }) := by
  refine ⟨?_, ?_, ?_⟩
  · intro h
    simp [startSession, h]
  · intro h hout
    have : (tm < 5 || tm > 240) = true := by
      rcases hout with h1 | h1 <;> simp [h1]
    simp [startSession, h, this]
  · intro h h5 h240
    have hd : (tm < 5 || tm > 240) = false := by
      simp only [Bool.or_eq_false_iff, decide_eq_false_iff_not, not_lt, gt_iff_lt]
      omega
    simp only [startSession, h, hd, Bool.false_eq_true, if_false]
    exact ⟨_, _, rfl, rfl, rfl, rfl, rfl, rfl, rfl⟩

/-- Witness for `C4_start_amended` at concrete inputs. -/
theorem C4_start_amended_witness :
    startSession dbWithActive none 3 1000 = .error .sessionAlreadyActive ∧
    startSession emptyDB none 3 1000 = .error .invalidDuration ∧
    ∃ s db', startSession emptyDB none 25 1000 = .ok (s, db') ∧
      s.status = "active" ∧ s.start = 1000 ∧
      s.targetDuration = some 1500 ∧ s.duration = none ∧ s.endTime = none ∧
      db' = { emptyDB with sessions := emptyDB.sessions ++ [s] } := by
  refine ⟨(C4_start_amended dbWithActive none 3 1000).1 (by decide),
          (C4_start_amended emptyDB none 3 1000).2.1 (by decide) (by omega), ?_⟩
  have h := (C4_start_amended emptyDB none 25 1000).2.2 (by decide)
      (by omega) (by omega)
  simpa using h

/-- `PATCH /pomodoro/:id` (routes/pomodoro.ts).  A bare
`prisma.pomodoroSession.update({ where: { id }, data: { duration } })`: it
rejects (Prisma P2025) when no row has that id, and otherwise overwrites the
`duration` column — there is no status check of any kind. -/
def recordProgress (db : DB) (id : Int) (duration : Int) :
    Except ApiError (PomodoroSession × DB) :=
  match db.sessions.find? (fun s => s.id == id) with
  | none => .error .sessionNotFound
  | some old =>
      .ok ({ old with duration := some duration },
           { db with sessions := db.sessions.map (fun s =>
               if s.id == id then { s with duration := some duration } else s) })

/-- `POST /pomodoro/cancel/:id` (routes/pomodoro.ts): 404 when missing,
400 when not active, else set `status="cancelled"`, `end=now`. -/
def cancelSession (db : DB) (id : Int) (now : Int) :
    Except ApiError (PomodoroSession × DB) :=
  match db.sessions.find? (fun s => s.id == id) with
  | none => .error .sessionNotFound
  | some existing =>
      if existing.status != "active" then .error .sessionNotActive
      else
        .ok ({ existing with status := "cancelled", endTime := some now },
             { db with sessions := db.sessions.map (fun s =>
                 if s.id == id then
                   { s with status := "cancelled", endTime := some now }
                 else s) })

/-- The `prisma.habitStatistics.upsert` of `POST /pomodoro/complete/:id`:
increment `totalPomodoros` by 1 and `totalDuration` by `dur` on the
`(hid, d)` row, creating it with zeros-plus-delta when absent. -/
def upsertPomodoroStats (rows : List HabitStatistics) (hid d dur : Int) :
    List HabitStatistics :=
  if rows.any (fun r => r.habitId == hid && r.date == d) then
    rows.map (fun r =>
      if r.habitId == hid && r.date == d then
        { r with totalPomodoros := r.totalPomodoros + 1,
                 totalDuration := r.totalDuration + dur }
      else r)
  else
    rows ++ [{ habitId := hid, date := d, totalPomodoros := 1,
               totalDuration := dur, completedHabits := 0, failedHabits := 0 }]

/-- `POST /pomodoro/complete/:id` (routes/pomodoro.ts): 404 when missing,
400 when not active; else the elapsed duration is recomputed as
`Math.floor((now - start) / 1000)` seconds, the session row is closed, and —
only when the session references a habit — one pomodoro calendar event is
created with `date = endTime` (raw, not normalized) and the statistics row
for `(habit, midnight of endTime)` is increment-upserted. -/
def completeSession (db : DB) (id : Int) (now : Int) :
    Except ApiError (PomodoroSession × DB) :=
  match db.sessions.find? (fun s => s.id == id) with
  | none => .error .sessionNotFound
  | some existing =>
      if existing.status != "active" then .error .sessionNotActive
      else
        let dur := (now - existing.start).fdiv 1000
        let sessions := db.sessions.map (fun s =>
          if s.id == id then
            { s with endTime := some now
                     duration := some dur
                     status := "completed" }
          else s)
        match existing.habitId with
        | some hid =>
            let ev : CalendarEvent :=
              { habitId := some hid, title := "Pomodoro: Completed",
                date := now, completed := true, type := "pomodoro",
                duration := some dur }
            .ok ({ existing with endTime := some now
                                 duration := some dur
                                 status := "completed" },
                 { db with sessions := sessions
                           events := db.events ++ [ev]
                           stats := upsertPomodoroStats db.stats hid
                              (midnightUTC now) dur })
        | none =>
            .ok ({ existing with endTime := some now
                                 duration := some dur
                                 status := "completed" },
                 { db with sessions := sessions })

/-- The statistics row for a `(habitId, date)` key, if present. -/
def statRow (db : DB) (hid d : Int) : Option HabitStatistics :=
  db.stats.find? (fun r => r.habitId == hid && r.date == d)

/-- `totalPomodoros` of the `(hid, d)` statistics row (0 when absent). -/
def totalPomodorosOf (db : DB) (hid d : Int) : Int :=
  ((statRow db hid d).map (fun r => r.totalPomodoros)).getD 0

/-- `totalDuration` of the `(hid, d)` statistics row (0 when absent). -/
def totalDurationOf (db : DB) (hid d : Int) : Int :=
  ((statRow db hid d).map (fun r => r.totalDuration)).getD 0

/-- `completedHabits` of the `(hid, d)` statistics row (0 when absent). -/
def completedHabitsOf (db : DB) (hid d : Int) : Int :=
  ((statRow db hid d).map (fun r => r.completedHabits)).getD 0

/-- `failedHabits` of the `(hid, d)` statistics row (0 when absent). -/
def failedHabitsOf (db : DB) (hid d : Int) : Int :=
  ((statRow db hid d).map (fun r => r.failedHabits)).getD 0

/-- `List.find?_some` with the implicit arguments driven by the hypothesis. -/
theorem find?_got {α : Type} {p : α → Bool} {l : List α} {a : α}
    (h : l.find? p = some a) : p a = true :=
  List.find?_some h

theorem find?_map_eq {α : Type} (l : List α) (f : α → α) (p : α → Bool)
    (hp : ∀ a, p (f a) = p a) : (l.map f).find? p = (l.find? p).map f := by
  induction l with
  | nil => rfl
  | cons a t ih =>
      cases h : p a with
      | true =>
          rw [List.map_cons, List.find?_cons_of_pos _ ((hp a).trans h),
              List.find?_cons_of_pos _ h, Option.map_some']
      | false =>
          rw [List.map_cons,
              List.find?_cons_of_neg _ (by rw [hp, h]; exact Bool.false_ne_true),
              List.find?_cons_of_neg _ (by rw [h]; exact Bool.false_ne_true), ih]

theorem find?_append_some {α : Type} {l₁ : List α} (l₂ : List α)
    {p : α → Bool} {a : α} (h : l₁.find? p = some a) :
    (l₁ ++ l₂).find? p = some a := by
  induction l₁ with
  | nil => exact absurd h (by simp)
  | cons b t ih =>
      cases hb : p b with
      | true =>
          rw [List.find?_cons_of_pos _ hb] at h
          rw [List.cons_append, List.find?_cons_of_pos _ hb]
          exact h
      | false =>
          rw [List.find?_cons_of_neg _ (by rw [hb]; exact Bool.false_ne_true)] at h
          rw [List.cons_append,
              List.find?_cons_of_neg _ (by rw [hb]; exact Bool.false_ne_true)]
          exact ih h

theorem find?_append_none {α : Type} {l₁ : List α} (l₂ : List α)
    {p : α → Bool} (h : l₁.find? p = none) :
    (l₁ ++ l₂).find? p = l₂.find? p := by
  induction l₁ with
  | nil => rfl
  | cons b t ih =>
      cases hb : p b with
      | true =>
          rw [List.find?_cons_of_pos _ hb] at h
          exact absurd h (by simp)
      | false =>
          rw [List.find?_cons_of_neg _ (by rw [hb]; exact Bool.false_ne_true)] at h
          rw [List.cons_append,
              List.find?_cons_of_neg _ (by rw [hb]; exact Bool.false_ne_true)]
          exact ih h

/-- A database whose only session is already completed with a recorded
duration of 100 seconds. -/
def dbWithCompleted : DB :=
  { emptyDB with sessions :=
      [{ id := 1, habitId := none, start := 0, endTime := some 100000,
         duration := some 100, targetDuration := some 1500,
         status := "completed" }] }

/-- Claim C5 (counterexample): the claim says a progress update against a
terminal session is rejected with `SessionNotActive` and leaves the duration
unchanged.  On the code, `PATCH /pomodoro/:id` performs no status check: a
progress update against a completed session succeeds and overwrites its
duration (here from 100 to 500). -/
theorem C5_recordProgress_counterexample :
    recordProgress dbWithCompleted 1 500 ≠ .error .sessionNotActive ∧
    ((recordProgress dbWithCompleted 1 500).toOption.map
      (fun p => ((p.2.sessions.find? (fun s => s.id == 1)).map
        (fun s => s.duration)).getD none)) = some (some 500) := by
  decide

/-- Claim C5 (amended): `recordProgress` fails (a Prisma "record not found"
rejection, surfaced as a 500, standing for `SessionNotFound`) exactly when no
session with that id exists; for an existing session it succeeds and
overwrites the duration counter regardless of status — including terminal
(completed or cancelled) sessions — leaving the other tables and the other
sessions untouched. -/
theorem C5_recordProgress_amended (db : DB) (id dur : Int) :
    (db.sessions.find? (fun s => s.id == id) = none →
      recordProgress db id dur = .error .sessionNotFound) ∧
    (∀ s, db.sessions.find? (fun s => s.id == id) = some s →
      ∃ db', recordProgress db id dur =
          .ok ({ s with duration := some dur }, db') ∧
        db'.sessions.find? (fun t => t.id == id) =
          some { s with duration := some dur } ∧
        (∀ t ∈ db.sessions, (t.id == id) = false → t ∈ db'.sessions) ∧
        db'.events = db.events ∧ db'.stats = db.stats ∧
        db'.habits = db.habits) := by
  constructor
  · intro h
    simp [recordProgress, h]
  · intro s hs
    refine ⟨{ db with sessions := db.sessions.map (fun t =>
        if t.id == id then { t with duration := some dur } else t) },
      ?_, ?_, ?_, rfl, rfl, rfl⟩
    · simp only [recordProgress, hs]
    · have hid0 := find?_got hs
      have hid : (s.id == id) = true := hid0
      have hmap := find?_map_eq db.sessions
        (fun s => if s.id == id then { s with duration := some dur } else s)
        (fun t => t.id == id)
        (fun a => by by_cases h : (a.id == id) = true <;> simp [h])
      simp only [hmap, hs, Option.map_some']
      rw [if_pos hid]
    · intro t ht htid
      have hft : (fun s => if s.id == id then { s with duration := some dur }
          else s) t = t := by simp [htid]
      exact List.mem_map.mpr ⟨t, ht, hft⟩

/-- Witness for `C5_recordProgress_amended`: a fresh active session's
progress update records the new duration. -/
theorem C5_recordProgress_amended_witness :
    ∃ db', recordProgress dbWithActive 1 42 =
        .ok ({ id := 1, habitId := none, start := 0, endTime := none,
               duration := some 42, targetDuration := some 1500,
               status := "active" }, db') ∧
      db'.sessions.find? (fun t => t.id == 1) =
        some { id := 1, habitId := none, start := 0, endTime := none,
               duration := some 42, targetDuration := some 1500,
               status := "active" } ∧
      (∀ t ∈ dbWithActive.sessions, (t.id == 1) = false →
        t ∈ db'.sessions) ∧
      db'.events = dbWithActive.events ∧ db'.stats = dbWithActive.stats ∧
      db'.habits = dbWithActive.habits := by
  have h := (C5_recordProgress_amended dbWithActive 1 42).2
    { id := 1, habitId := none, start := 0, endTime := none,
      duration := none, targetDuration := some 1500, status := "active" }
    (by decide)
  exact h

/-- Claim C10: for every session that exists and is active, `cancel` sets
only `status="cancelled"` and `end=now` on that session; its `duration`
keeps whatever the last progress update wrote, no calendar event is
appended, and no statistics row is created or modified (the habit, event
and statistics tables are untouched, as are the other sessions). -/
theorem C10_cancel_frame (db : DB) (id now : Int) (s : PomodoroSession)
    (hs : db.sessions.find? (fun t => t.id == id) = some s)
    (hact : s.status = "active") :
    ∃ db', cancelSession db id now =
        .ok ({ s with status := "cancelled", endTime := some now }, db') ∧
      db'.sessions.find? (fun t => t.id == id) =
        some { s with status := "cancelled", endTime := some now } ∧
      ({ s with status := "cancelled", endTime := some now } :
          PomodoroSession).duration = s.duration ∧
      (∀ t ∈ db.sessions, (t.id == id) = false → t ∈ db'.sessions) ∧
      db'.events = db.events ∧ db'.stats = db.stats ∧
      db'.habits = db.habits := by
  refine ⟨{ db with sessions := db.sessions.map (fun t =>
      if t.id == id then { t with status := "cancelled", endTime := some now }
      else t) }, ?_, ?_, rfl, ?_, rfl, rfl, rfl⟩
  · simp only [cancelSession, hs, hact, bne_self_eq_false, Bool.false_eq_true,
      if_false]
  · have hid0 := find?_got hs
    have hid : (s.id == id) = true := hid0
    have hmap := find?_map_eq db.sessions
      (fun t => if t.id == id then
        { t with status := "cancelled", endTime := some now } else t)
      (fun t => t.id == id)
      (fun a => by by_cases h : (a.id == id) = true <;> simp [h])
    simp only [hmap, hs, Option.map_some']
    rw [if_pos hid]
  · intro t ht htid
    have hft : (fun t => if t.id == id then
        { t with status := "cancelled", endTime := some now } else t) t = t := by
      simp [htid]
    exact List.mem_map.mpr ⟨t, ht, hft⟩

/-- Witness for `C10_cancel_frame` on a concrete active session. -/
theorem C10_cancel_frame_witness :
    ∃ db', cancelSession dbWithActive 1 777 =
        .ok ({ id := 1, habitId := none, start := 0, endTime := some 777,
               duration := none, targetDuration := some 1500,
               status := "cancelled" }, db') ∧
      db'.sessions.find? (fun t => t.id == 1) =
        some { id := 1, habitId := none, start := 0, endTime := some 777,
               duration := none, targetDuration := some 1500,
               status := "cancelled" } ∧
      db'.events = dbWithActive.events ∧ db'.stats = dbWithActive.stats ∧
      db'.habits = dbWithActive.habits := by
  obtain ⟨db', h1, h2, _, _, h5, h6, h7⟩ := C10_cancel_frame dbWithActive 1 777
    { id := 1, habitId := none, start := 0, endTime := none,
      duration := none, targetDuration := some 1500, status := "active" }
    (by decide) rfl
  exact ⟨db', h1, h2, h5, h6, h7⟩

/-- Looking up the upserted key after a keyed `prisma...upsert` (modelled as:
update every matching row when one exists, else append the fresh row):
the result merges the previous row when present. -/
theorem upsert_find_hit (rows : List HabitStatistics)
    (p : HabitStatistics → Bool) (upd : HabitStatistics → HabitStatistics)
    (new : HabitStatistics) (hupd : ∀ r, p (upd r) = p r)
    (hnew : p new = true) :
    (if rows.any p then rows.map (fun r => if p r then upd r else r)
     else rows ++ [new]).find? p = some ((rows.find? p).elim new upd) := by
  cases hf : rows.find? p with
  | none =>
      have hany : rows.any p = false := by
        cases hany : rows.any p
        · rfl
        · obtain ⟨x, hx, hpx⟩ := List.any_eq_true.mp hany
          have := List.find?_eq_none.mp hf x hx
          rw [hpx] at this
          exact absurd rfl this
      rw [if_neg (by rw [hany]; exact Bool.false_ne_true),
          find?_append_none _ hf]
      simp [List.find?, hnew]
  | some r =>
      have hany : rows.any p = true :=
        List.any_eq_true.mpr ⟨r, List.mem_of_find?_eq_some hf, find?_got hf⟩
      rw [if_pos hany,
          find?_map_eq rows _ p
            (fun a => by by_cases h : p a = true <;> simp [h, hupd]),
          hf, Option.map_some']
      simp [find?_got hf]

/-- A keyed upsert leaves every other key's lookup unchanged. -/
theorem upsert_find_miss (rows : List HabitStatistics)
    (p q : HabitStatistics → Bool) (upd : HabitStatistics → HabitStatistics)
    (new : HabitStatistics) (hq : ∀ r, q (upd r) = q r)
    (hpq : ∀ r, p r = true → q r = false) (hqnew : q new = false) :
    (if rows.any p then rows.map (fun r => if p r then upd r else r)
     else rows ++ [new]).find? q = rows.find? q := by
  by_cases hany : rows.any p = true
  · rw [if_pos hany,
        find?_map_eq rows _ q
          (fun a => by by_cases h : p a = true <;> simp [h, hq])]
    cases hf : rows.find? q with
    | none => simp
    | some r =>
        have hqr := find?_got hf
        have hpr : p r = false := by
          cases hp : p r
          · rfl
          · rw [hpq r hp] at hqr
            exact absurd hqr Bool.false_ne_true
        simp [hpr]
  · rw [if_neg hany]
    cases hf : rows.find? q with
    | some a => exact find?_append_some _ hf
    | none =>
        rw [find?_append_none _ hf]
        simp [List.find?, hqnew]

/-- The pomodoro statistics upsert at its own key. -/
theorem upsertPomodoroStats_hit (rows : List HabitStatistics)
    (hid d dur : Int) :
    (upsertPomodoroStats rows hid d dur).find?
        (fun r => r.habitId == hid && r.date == d) =
      some ((rows.find? (fun r => r.habitId == hid && r.date == d)).elim
        { habitId := hid, date := d, totalPomodoros := 1, totalDuration := dur,
          completedHabits := 0, failedHabits := 0 }
        (fun r => { r with
            totalPomodoros := r.totalPomodoros + 1
            totalDuration := r.totalDuration + dur })) := by
  unfold upsertPomodoroStats
  exact upsert_find_hit rows _ _ _ (fun r => rfl) (by simp)

/-- The pomodoro statistics upsert at any other key. -/
theorem upsertPomodoroStats_miss (rows : List HabitStatistics)
    (hid d dur h2 d2 : Int) (hne : ¬(h2 = hid ∧ d2 = d)) :
    (upsertPomodoroStats rows hid d dur).find?
        (fun r => r.habitId == h2 && r.date == d2) =
      rows.find? (fun r => r.habitId == h2 && r.date == d2) := by
  unfold upsertPomodoroStats
  refine upsert_find_miss rows _ _ _ _ (fun r => rfl) ?_ ?_
  · intro r hr
    rw [Bool.and_eq_true, beq_iff_eq, beq_iff_eq] at hr
    cases hq : (r.habitId == h2 && r.date == d2)
    · rfl
    · rw [Bool.and_eq_true, beq_iff_eq, beq_iff_eq] at hq
      exact absurd ⟨hq.1 ▸ hr.1, hq.2 ▸ hr.2⟩ hne
  · rw [Bool.eq_false_iff]
    intro hq
    rw [Bool.and_eq_true, beq_iff_eq, beq_iff_eq] at hq
    exact hne ⟨hq.1.symm, hq.2.symm⟩

/-- Claim C3: for every existing active session, `complete(sessionId)`
computes the elapsed duration as `now - start` (seconds, not the
client-reported counter), closes the session with `status="completed"`,
`end=now` and that duration; and exactly when the session references a
habit it appends exactly one pomodoro-kind event carrying the computed
duration and applies exactly one increment-upsert to the statistics row of
`(habit, day of end)`: `totalPomodoros+=1`, `totalDuration+=duration`,
every other statistics key and field untouched.  Without a habit reference
the event and statistics tables are untouched. -/
theorem C3_complete_session (db : DB) (id now : Int) (s : PomodoroSession)
    (hs : db.sessions.find? (fun t => t.id == id) = some s)
    (hact : s.status = "active") :
    ∃ db', completeSession db id now =
        .ok ({ s with endTime := some now
                      duration := some ((now - s.start).fdiv 1000)
                      status := "completed" }, db') ∧
      db'.sessions.find? (fun t => t.id == id) =
        some { s with endTime := some now
                      duration := some ((now - s.start).fdiv 1000)
                      status := "completed" } ∧
      (∀ hid, s.habitId = some hid →
        db'.events = db.events ++
          [{ habitId := some hid, title := "Pomodoro: Completed", date := now,
             completed := true, type := "pomodoro",
             duration := some ((now - s.start).fdiv 1000) }] ∧
        totalPomodorosOf db' hid (midnightUTC now) =
          totalPomodorosOf db hid (midnightUTC now) + 1 ∧
        totalDurationOf db' hid (midnightUTC now) =
          totalDurationOf db hid (midnightUTC now) + (now - s.start).fdiv 1000 ∧
        completedHabitsOf db' hid (midnightUTC now) =
          completedHabitsOf db hid (midnightUTC now) ∧
        failedHabitsOf db' hid (midnightUTC now) =
          failedHabitsOf db hid (midnightUTC now) ∧
        (∀ h2 d2, ¬(h2 = hid ∧ d2 = midnightUTC now) →
          statRow db' h2 d2 = statRow db h2 d2)) ∧
      (s.habitId = none → db'.events = db.events ∧ db'.stats = db.stats) := by
  have hid0 := find?_got hs
  have hsid : (s.id == id) = true := hid0
  have hmap := find?_map_eq db.sessions
    (fun t => if t.id == id then
      { t with endTime := some now
               duration := some ((now - s.start).fdiv 1000)
               status := "completed" } else t)
    (fun t => t.id == id)
    (fun a => by by_cases h : (a.id == id) = true <;> simp [h])
  cases hsh : s.habitId with
  | some hid1 =>
      refine ⟨{ db with
          sessions := db.sessions.map (fun t => if t.id == id then
            { t with endTime := some now
                     duration := some ((now - s.start).fdiv 1000)
                     status := "completed" } else t)
          events := db.events ++
            [{ habitId := some hid1, title := "Pomodoro: Completed",
               date := now, completed := true, type := "pomodoro",
               duration := some ((now - s.start).fdiv 1000) }]
          stats := upsertPomodoroStats db.stats hid1 (midnightUTC now)
            ((now - s.start).fdiv 1000) }, ?_, ?_, ?_, ?_⟩
      · simp only [completeSession, hs, hact, bne_self_eq_false,
          Bool.false_eq_true, if_false, hsh]
      · simp only [hmap, hs, Option.map_some']
        rw [if_pos hsid, hsh]
      · intro hid heq
        injection heq with heq
        subst heq
        refine ⟨rfl, ?_, ?_, ?_, ?_, ?_⟩
        · simp only [totalPomodorosOf, statRow, upsertPomodoroStats_hit]
          cases db.stats.find?
              (fun r => r.habitId == hid1 && r.date == midnightUTC now) <;>
            simp
        · simp only [totalDurationOf, statRow, upsertPomodoroStats_hit]
          cases db.stats.find?
              (fun r => r.habitId == hid1 && r.date == midnightUTC now) <;>
            simp
        · simp only [completedHabitsOf, statRow, upsertPomodoroStats_hit]
          cases db.stats.find?
              (fun r => r.habitId == hid1 && r.date == midnightUTC now) <;>
            simp
        · simp only [failedHabitsOf, statRow, upsertPomodoroStats_hit]
          cases db.stats.find?
              (fun r => r.habitId == hid1 && r.date == midnightUTC now) <;>
            simp
        · intro h2 d2 hne
          exact upsertPomodoroStats_miss db.stats hid1 (midnightUTC now)
            ((now - s.start).fdiv 1000) h2 d2 hne
      · intro h
        exact absurd h (by simp)
  | none =>
      refine ⟨{ db with
          sessions := db.sessions.map (fun t => if t.id == id then
            { t with endTime := some now
                     duration := some ((now - s.start).fdiv 1000)
                     status := "completed" } else t) }, ?_, ?_, ?_, ?_⟩
      · simp only [completeSession, hs, hact, bne_self_eq_false,
          Bool.false_eq_true, if_false, hsh]
      · simp only [hmap, hs, Option.map_some']
        rw [if_pos hsid, hsh]
      · intro hid heq
        exact absurd heq (by simp)
      · intro _
        exact ⟨rfl, rfl⟩

/-- A database with habit 7 and an active session for it, started at t=0
with a 25-minute target (the spec's scenario). -/
def dbPomodoro : DB :=
  { habits := [{ id := 7 }],
    sessions := [{ id := 1, habitId := some 7, start := 0, endTime := none,
                   duration := some 1500, targetDuration := some 1500,
                   status := "active" }],
    events := [], stats := [] }

/-- Witness for `C3_complete_session`: completing the spec's scenario
session 1500 seconds after its start closes it with duration 1500 and bumps
`totalPomodoros` for habit 7 on the day of completion. -/
theorem C3_complete_session_witness :
    ∃ db', completeSession dbPomodoro 1 1500000 =
        .ok ({ id := 1, habitId := some 7, start := 0,
               endTime := some 1500000, duration := some 1500,
               targetDuration := some 1500, status := "completed" }, db') ∧
      totalPomodorosOf db' 7 (midnightUTC 1500000) =
        totalPomodorosOf dbPomodoro 7 (midnightUTC 1500000) + 1 := by
  obtain ⟨db', h1, _, h3, _⟩ := C3_complete_session dbPomodoro 1 1500000
    { id := 1, habitId := some 7, start := 0, endTime := none,
      duration := some 1500, targetDuration := some 1500, status := "active" }
    (by decide) rfl
  obtain ⟨_, h32, _⟩ := h3 7 rfl
  exact ⟨db', h1, h32⟩

/-- `prisma.habit.findMany` membership: does a habit row with this id
exist (the foreign-key target of `CalendarEvent.habitId` and
`HabitStatistics.habitId`). -/
def habitExists (db : DB) (hid : Int) : Bool :=
  db.habits.any (fun h => h.id == hid)

/-- The `prisma.habitStatistics.upsert` of `POST /calendar/complete`:
`completedHabits` is incremented by 1 when the submitted `completed` flag is
true (else by 0), `failedHabits` by 1 when it is false (else by 0); the row
is created with zeros-plus-delta when absent.  No previous completion state
is consulted. -/
def upsertCompletionStats (rows : List HabitStatistics) (hid d : Int)
    (completed : Bool) : List HabitStatistics :=
  if rows.any (fun r => r.habitId == hid && r.date == d) then
    rows.map (fun r =>
      if r.habitId == hid && r.date == d then
        { r with
            completedHabits := r.completedHabits + (if completed then 1 else 0)
            failedHabits := r.failedHabits + (if completed then 0 else 1) }
      else r)
  else
    rows ++ [{ habitId := hid, date := d, totalPomodoros := 0,
               totalDuration := 0,
               completedHabits := if completed then 1 else 0,
               failedHabits := if completed then 0 else 1 }]

/-- `POST /calendar/complete` (routes/calendar.ts).  Two sequential writes
with no enclosing transaction: (1) `calendarEvent.create` with the date
normalized to UTC midnight, habitId as sent (`habitId ? Number(habitId) :
null`); (2) `habitStatistics.upsert` keyed on `Number(habitId)`
(`Number(null) = 0` / `Number(undefined) = NaN` — modelled as key 0, which
never names an existing habit).  A write fails when it would violate the
habit foreign key (insert of an event or a fresh statistics row referencing
a non-existent habit); a failure aborts the handler but keeps everything
already written.  Result: the created event (`none` on failure) and the
database state reached. -/
def calendarComplete (db : DB) (habitId : Option Int) (dateMs : Int)
    (completed : Bool) : Option CalendarEvent × DB :=
  let targetDate := midnightUTC dateMs
  match habitId with
  | some hid =>
      let ev : CalendarEvent :=
        { habitId := some hid, title := "Habit: Completed", date := targetDate,
          completed := completed, type := "habit", duration := none }
      if habitExists db hid then
        let db1 := { db with events := db.events ++ [ev] }
        (some ev, { db1 with
          stats := upsertCompletionStats db1.stats hid targetDate completed })
      else
        (none, db)
  | none =>
      let ev : CalendarEvent :=
        { habitId := none, title := "Habit: General", date := targetDate,
          completed := completed, type := "habit", duration := none }
      let db1 := { db with events := db.events ++ [ev] }
      if db1.stats.any (fun r => r.habitId == 0 && r.date == targetDate)
          || habitExists db 0 then
        (some ev, { db1 with
          stats := upsertCompletionStats db1.stats 0 targetDate completed })
      else
        (none, db1)

/-- A sequence of completion-toggle submissions for the same (habit, day),
each carrying the day's freshly computed completion state, as
`toggleChecklistItem` POSTs them (HabitCard component). -/
def submitToggles (db : DB) (hid : Int) (dateMs : Int) (subs : List Bool) :
    DB :=
  subs.foldl (fun d c => (calendarComplete d (some hid) dateMs c).2) db

/-- The completion statistics upsert at its own key. -/
theorem upsertCompletionStats_hit (rows : List HabitStatistics)
    (hid d : Int) (c : Bool) :
    (upsertCompletionStats rows hid d c).find?
        (fun r => r.habitId == hid && r.date == d) =
      some ((rows.find? (fun r => r.habitId == hid && r.date == d)).elim
        { habitId := hid, date := d, totalPomodoros := 0, totalDuration := 0,
          completedHabits := if c then 1 else 0,
          failedHabits := if c then 0 else 1 }
        (fun r => { r with
            completedHabits := r.completedHabits + (if c then 1 else 0)
            failedHabits := r.failedHabits + (if c then 0 else 1) })) := by
  unfold upsertCompletionStats
  exact upsert_find_hit rows _ _ _ (fun r => rfl) (by simp)

/-- One completion-toggle submission for an existing habit increments
`completedHabits` by 1 when `completed=true` is submitted and `failedHabits`
by 1 when `completed=false` is submitted, unconditionally. -/
theorem calendarComplete_counts_step (db : DB) (hid dateMs : Int) (c : Bool)
    (hh : habitExists db hid = true) :
    ((calendarComplete db (some hid) dateMs c).2.habits = db.habits) ∧
    completedHabitsOf (calendarComplete db (some hid) dateMs c).2 hid
        (midnightUTC dateMs) =
      completedHabitsOf db hid (midnightUTC dateMs) +
        (if c then 1 else 0) ∧
    failedHabitsOf (calendarComplete db (some hid) dateMs c).2 hid
        (midnightUTC dateMs) =
      failedHabitsOf db hid (midnightUTC dateMs) +
        (if c then 0 else 1) := by
  refine ⟨?_, ?_, ?_⟩
  · simp only [calendarComplete, hh, if_true]
  · simp only [calendarComplete, hh, if_true, completedHabitsOf, statRow,
      upsertCompletionStats_hit]
    cases db.stats.find? (fun r => r.habitId == hid && r.date == midnightUTC dateMs) <;>
      cases c <;> simp
  · simp only [calendarComplete, hh, if_true, failedHabitsOf, statRow,
      upsertCompletionStats_hit]
    cases db.stats.find? (fun r => r.habitId == hid && r.date == midnightUTC dateMs) <;>
      cases c <;> simp

/-- A database containing only habit 1. -/
def dbHabit1 : DB :=
  { habits := [{ id := 1 }], sessions := [], events := [], stats := [] }

/-- Claim C1 (counterexample): the claim says `completedHabits` grows only
on an incomplete→complete flip, so re-submitting the same completion state
must not grow it.  On the code, submitting `completed=true` twice for the
same (habit, day) — e.g. checking a second checklist item while the habit
stays complete — yields `completedHabits = 2`: the upsert increments on
every submission, with no flip tracking. -/
theorem C1_no_double_count_counterexample :
    completedHabitsOf (submitToggles dbHabit1 1 0 [true]) 1 0 = 1 ∧
    completedHabitsOf (submitToggles dbHabit1 1 0 [true, true]) 1 0 = 2 ∧
    failedHabitsOf (submitToggles dbHabit1 1 0 [false, false]) 1 0 = 2 := by
  decide

/-- Claim C1 (amended): for any sequence of completion-toggle submissions
for the same existing (habit, day), `completedHabits` ends up increased by
the number of submissions carrying `completed=true` and `failedHabits` by
the number carrying `completed=false` — each submission increments
unconditionally, so repeated toggles double-count. -/
theorem C1_toggle_counts_amended (subs : List Bool) (db : DB)
    (hid dateMs : Int) (hh : habitExists db hid = true) :
    completedHabitsOf (submitToggles db hid dateMs subs) hid
        (midnightUTC dateMs) =
      completedHabitsOf db hid (midnightUTC dateMs) +
        ((subs.count true : Nat) : Int) ∧
    failedHabitsOf (submitToggles db hid dateMs subs) hid
        (midnightUTC dateMs) =
      failedHabitsOf db hid (midnightUTC dateMs) +
        ((subs.count false : Nat) : Int) := by
  induction subs generalizing db with
  | nil => simp [submitToggles]
  | cons c rest ih =>
      have hstep := calendarComplete_counts_step db hid dateMs c hh
      have hh' : habitExists (calendarComplete db (some hid) dateMs c).2 hid
          = true := by
        rw [habitExists, hstep.1]
        exact hh
      have hrest := ih (calendarComplete db (some hid) dateMs c).2 hh'
      have hfold : submitToggles db hid dateMs (c :: rest) =
          submitToggles (calendarComplete db (some hid) dateMs c).2 hid
            dateMs rest := rfl
      constructor
      · rw [hfold, hrest.1, hstep.2.1, List.count_cons]
        cases c <;> simp <;> omega
      · rw [hfold, hrest.2, hstep.2.2, List.count_cons]
        cases c <;> simp <;> omega

/-- Witness for `C1_toggle_counts_amended` on the concrete habit-1 database
with three submissions. -/
theorem C1_toggle_counts_amended_witness :
    completedHabitsOf (submitToggles dbHabit1 1 0 [true, true, false]) 1
        (midnightUTC 0) =
      completedHabitsOf dbHabit1 1 (midnightUTC 0) +
        (([true, true, false].count true : Nat) : Int) ∧
    failedHabitsOf (submitToggles dbHabit1 1 0 [true, true, false]) 1
        (midnightUTC 0) =
      failedHabitsOf dbHabit1 1 (midnightUTC 0) +
        (([true, true, false].count false : Nat) : Int) :=
  C1_toggle_counts_amended [true, true, false] dbHabit1 1 0 (by decide)

/-- The per-habit completion report of `GET /calendar/date/:date`
(routes/calendar.ts, `habitsForDay`): events of the UTC day are selected by
`startOfDay ≤ date ≤ endOfDay`, and for each known habit the `completed`
flag is `habitEvents.some(e => !!e.completed)` over that habit's habit-kind
events of the day. -/
def habitsForDayCompleted (habits : List Habit) (events : List CalendarEvent)
    (dateMs : Int) : List (Int × Bool) :=
  let startOfDay := midnightUTC dateMs
  let endOfDay := startOfDay + msPerDay - 1
  let dayEvents := events.filter (fun e =>
    decide (startOfDay ≤ e.date) && decide (e.date ≤ endOfDay))
  habits.map (fun h =>
    (h.id, (dayEvents.filter (fun e =>
      e.habitId == some h.id && e.type == "habit")).any
        (fun e => e.completed)))

/-- Modelled from the spec's words, for comparison with
`habitsForDayCompleted`: a habit counts as completed on a day exactly when
the latest habit-kind event for (habit, day) — latest by creation order,
i.e. last in the insertion-ordered log — has its completed flag true; no
event means false. -/
def specLatestCompleted (events : List CalendarEvent) (hid : Int)
    (dateMs : Int) : Bool :=
  (((events.filter (fun e =>
      decide (midnightUTC dateMs ≤ e.date) &&
      decide (e.date ≤ midnightUTC dateMs + msPerDay - 1) &&
      e.habitId == some hid && e.type == "habit")).getLast?).map
    (fun e => e.completed)).getD false

/-- A log where habit 1's day-0 completion was first reported `true` and
then (a later, thus latest, event) `false`. -/
def evTrueThenFalse : List CalendarEvent :=
  [{ habitId := some 1, title := "Habit: Completed", date := 0,
     completed := true, type := "habit", duration := none },
   { habitId := some 1, title := "Habit: Completed", date := 0,
     completed := false, type := "habit", duration := none }]

/-- Claim C2 (counterexample): the claim says `queryDay` reports a habit
completed exactly when the latest habit-kind event of the day has
`completed=true`.  On the code the report is an OR over all of the day's
events: with events `[completed=true, completed=false]` the latest says
false but the day is reported completed. -/
theorem C2_queryDay_counterexample :
    habitsForDayCompleted [{ id := 1 }] evTrueThenFalse 0 = [(1, true)] ∧
    specLatestCompleted evTrueThenFalse 1 0 = false := by
  decide

/-- Claim C2 (amended): `queryDay` reports a habit as completed exactly
when SOME habit-kind event for (habit, day) has its completed flag true —
not the latest one; a habit with no event for the day is reported
`completed=false` (the OR over an empty set). -/
theorem C2_queryDay_amended (habits : List Habit)
    (events : List CalendarEvent) (dateMs : Int) :
    habitsForDayCompleted habits events dateMs =
      habits.map (fun h => (h.id, decide (∃ e ∈ events,
        midnightUTC dateMs ≤ e.date ∧
        e.date ≤ midnightUTC dateMs + msPerDay - 1 ∧
        e.habitId = some h.id ∧ e.type = "habit" ∧ e.completed = true))) := by
  unfold habitsForDayCompleted
  refine congrArg habits.map (funext fun h => ?_)
  refine congrArg (Prod.mk h.id) ?_
  rw [Bool.eq_iff_iff]
  simp only [List.any_eq_true, List.mem_filter, Bool.and_eq_true,
    beq_iff_eq, decide_eq_true_eq]
  constructor
  · rintro ⟨e, ⟨⟨he, hd1, hd2⟩, hh, ht⟩, hc⟩
    exact ⟨e, he, hd1, hd2, hh, ht, hc⟩
  · rintro ⟨e, he, hd1, hd2, hh, ht, hc⟩
    exact ⟨e, ⟨⟨he, hd1, hd2⟩, hh, ht⟩, hc⟩

/-- Claim C7 (counterexample): the claim says a failed logical action
leaves all prior state untouched (event append and statistics upsert both
succeed or both roll back).  The handler runs the two writes sequentially
with no transaction: a toggle without a habit reference (the statistics
key `Number(null)/Number(undefined)` names no habit) creates its calendar
event, then fails the upsert — the failed call leaves the appended event
behind. -/
theorem C7_atomicity_counterexample :
    (calendarComplete emptyDB none 0 true).1 = none ∧
    (calendarComplete emptyDB none 0 true).2 ≠ emptyDB ∧
    (calendarComplete emptyDB none 0 true).2.events.length = 1 ∧
    (calendarComplete emptyDB none 0 true).2.stats = emptyDB.stats := by
  decide

/-- Claim C7 (amended): the two writes of a completion toggle are
sequential and unguarded.  A failed call never leaves a partially applied
statistics upsert (the statistics table is untouched), but it may leave the
event appended: the final state is either unchanged or exactly the old
state plus one event.  In particular every toggle without a habit
reference, in a state with no habit 0 and no statistics row for key 0,
fails after its event was already appended. -/
theorem C7_atomicity_amended (db : DB) (habitId : Option Int) (dateMs : Int)
    (c : Bool) :
    ((calendarComplete db habitId dateMs c).1 = none →
      (calendarComplete db habitId dateMs c).2.stats = db.stats) ∧
    ((calendarComplete db habitId dateMs c).1 = none →
      (calendarComplete db habitId dateMs c).2 = db ∨
      (calendarComplete db habitId dateMs c).2.events.length =
        db.events.length + 1) ∧
    (habitId = none → db.habits = [] → db.stats = [] →
      (calendarComplete db habitId dateMs c).1 = none ∧
      (calendarComplete db habitId dateMs c).2.events.length =
        db.events.length + 1) := by
  refine ⟨?_, ?_, ?_⟩
  · intro hfail
    match habitId with
    | some hid =>
        by_cases hh : habitExists db hid = true
        · simp [calendarComplete, hh] at hfail
        · simp [calendarComplete, Bool.eq_false_iff.mpr hh]
    | none =>
        by_cases hup : (db.stats.any (fun r =>
            r.habitId == 0 && r.date == midnightUTC dateMs)
              || habitExists db 0) = true
        · simp [calendarComplete, hup] at hfail
        · simp [calendarComplete, Bool.eq_false_iff.mpr hup]
  · intro hfail
    match habitId with
    | some hid =>
        by_cases hh : habitExists db hid = true
        · simp [calendarComplete, hh] at hfail
        · left
          simp [calendarComplete, Bool.eq_false_iff.mpr hh]
    | none =>
        by_cases hup : (db.stats.any (fun r =>
            r.habitId == 0 && r.date == midnightUTC dateMs)
              || habitExists db 0) = true
        · simp [calendarComplete, hup] at hfail
        · right
          simp [calendarComplete, Bool.eq_false_iff.mpr hup]
  · intro hnone hhabits hstats
    subst hnone
    simp [calendarComplete, hstats, habitExists, hhabits]

/-- Witness for `C7_atomicity_amended` at the concrete empty state. -/
theorem C7_atomicity_amended_witness :
    (calendarComplete emptyDB none 0 true).1 = none ∧
    (calendarComplete emptyDB none 0 true).2.events.length =
      emptyDB.events.length + 1 :=
  (C7_atomicity_amended emptyDB none 0 true).2.2 rfl rfl rfl

/-- `DELETE /habits/:id` (routes/habits.ts: a bare `prisma.habit.delete`)
with the migration's referential actions: `PomodoroSession.habitId` and
`CalendarEvent.habitId` are `ON DELETE SET NULL`, while
`HabitStatistics.habitId` is `ON DELETE RESTRICT`, so the delete is
rejected while any statistics row references the habit; a missing habit is
a Prisma P2025 rejection. -/
def deleteHabit (db : DB) (hid : Int) : Option DB :=
  if !(db.habits.any (fun h => h.id == hid)) then none
  else if db.stats.any (fun r => r.habitId == hid) then none
  else some
    { habits := db.habits.filter (fun h => !(h.id == hid))
      sessions := db.sessions.map (fun s =>
        if s.habitId == some hid then { s with habitId := none } else s)
      events := db.events.map (fun e =>
        if e.habitId == some hid then { e with habitId := none } else e)
      stats := db.stats }

/-- A database with habit 1, one completed session and one event for it,
and no statistics rows. -/
def dbForDelete : DB :=
  { habits := [{ id := 1 }],
    sessions := [{ id := 1, habitId := some 1, start := 0,
                   endTime := some 1000, duration := some 1,
                   targetDuration := some 300, status := "completed" }],
    events := [{ habitId := some 1, title := "Pomodoro: Completed",
                 date := 0, completed := true, type := "pomodoro",
                 duration := some 1 }],
    stats := [] }

/-- `dbForDelete` plus one statistics row for habit 1. -/
def dbForDeleteStats : DB :=
  { dbForDelete with stats :=
      [{ habitId := 1, date := 0, totalPomodoros := 1, totalDuration := 1,
         completedHabits := 0, failedHabits := 0 }] }

/-- Claim C8 (counterexample): the claim says deleting a habit cascades to
its sessions and events, leaving none of them.  On the schema the foreign
keys are `SET NULL`, so after a successful delete the session and event
rows both survive (as orphans); and with a statistics row present
(`RESTRICT`) the delete fails outright. -/
theorem C8_delete_counterexample :
    ((deleteHabit dbForDelete 1).map
      (fun db' => (db'.sessions.length, db'.events.length))) = some (1, 1) ∧
    deleteHabit dbForDeleteStats 1 = none := by
  decide

/-- Claim C8 (amended): a successful habit deletion never deletes sessions
or events — it nullifies their habit reference, so the rows survive with
their counts unchanged and no row still references the habit; the
statistics table is untouched; and the delete is rejected whenever a
statistics row references the habit (`ON DELETE RESTRICT`). -/
theorem C8_delete_amended (db : DB) (hid : Int) :
    (∀ db', deleteHabit db hid = some db' →
      db'.sessions.length = db.sessions.length ∧
      db'.events.length = db.events.length ∧
      (∀ s ∈ db'.sessions, s.habitId ≠ some hid) ∧
      (∀ e ∈ db'.events, e.habitId ≠ some hid) ∧
      db'.stats = db.stats) ∧
    (db.stats.any (fun r => r.habitId == hid) = true →
      deleteHabit db hid = none) := by
  constructor
  · intro db' hdel
    unfold deleteHabit at hdel
    by_cases hex : db.habits.any (fun h => h.id == hid) = true
    · by_cases hst : db.stats.any (fun r => r.habitId == hid) = true
      · rw [if_neg (by simp [hex]), if_pos hst] at hdel
        exact absurd hdel (by simp)
      · rw [if_neg (by simp [hex]),
            if_neg (by rw [Bool.eq_false_iff.mpr hst]; exact Bool.false_ne_true)]
            at hdel
        injection hdel with hdel
        subst hdel
        refine ⟨by simp, by simp, ?_, ?_, rfl⟩
        · intro s hsmem
          obtain ⟨t, _, hts⟩ := List.mem_map.mp hsmem
          by_cases hcase : (t.habitId == some hid) = true
          · rw [if_pos hcase] at hts
            rw [← hts]
            simp
          · rw [if_neg (by simp [Bool.eq_false_iff.mp
                (Bool.not_eq_true _ ▸ hcase)])] at hts
            rw [← hts]
            intro hc
            rw [hc] at hcase
            exact hcase (by simp)
        · intro e hemem
          obtain ⟨t, _, hts⟩ := List.mem_map.mp hemem
          by_cases hcase : (t.habitId == some hid) = true
          · rw [if_pos hcase] at hts
            rw [← hts]
            simp
          · rw [if_neg (by simp [Bool.eq_false_iff.mp
                (Bool.not_eq_true _ ▸ hcase)])] at hts
            rw [← hts]
            intro hc
            rw [hc] at hcase
            exact hcase (by simp)
    · rw [if_pos (by rw [Bool.eq_false_iff.mpr hex]; rfl)] at hdel
      exact absurd hdel (by simp)
  · intro hst
    unfold deleteHabit
    by_cases hex : db.habits.any (fun h => h.id == hid) = true
    · rw [if_neg (by simp [hex]), if_pos hst]
    · rw [if_pos (by rw [Bool.eq_false_iff.mpr hex]; rfl)]

/-- Witness for `C8_delete_amended` on the concrete databases. -/
theorem C8_delete_amended_witness :
    (∃ db', deleteHabit dbForDelete 1 = some db' ∧
      db'.sessions.length = dbForDelete.sessions.length ∧
      db'.events.length = dbForDelete.events.length ∧
      db'.stats = dbForDelete.stats) ∧
    deleteHabit dbForDeleteStats 1 = none := by
  constructor
  · have hsome : ∃ db', deleteHabit dbForDelete 1 = some db' := ⟨_, rfl⟩
    obtain ⟨db', hdb'⟩ := hsome
    obtain ⟨h1, h2, _, _, h5⟩ := (C8_delete_amended dbForDelete 1).1 db' hdb'
    exact ⟨db', hdb', h1, h2, h5⟩
  · exact (C8_delete_amended dbForDeleteStats 1).2 (by decide)

/-- Every astronomical-midnight value taken by `midnightUTC`. -/
theorem midnightUTC_emod (t : Int) : midnightUTC t % msPerDay = 0 := by
  unfold midnightUTC
  rw [Int.sub_emod, Int.emod_emod_of_dvd t dvd_rfl, sub_self, Int.zero_emod]

/-- Claim C9 (counterexample): the claim says every event created by the
system stores a midnight-normalized date.  The pomodoro event written by
session completion stores the raw completion timestamp: completing at
t=90000000 (01:00 UTC of day 2) stores date 90000000, whose midnight is
86400000. -/
theorem C9_event_date_counterexample :
    ((completeSession dbPomodoro 1 90000000).toOption.map
      (fun p => p.2.events.map (fun e => (e.type, e.date)))) =
        some [("pomodoro", 90000000)] ∧
    midnightUTC 90000000 = 86400000 := by
  decide

/-- Claim C9 (amended): habit-kind events created by completion toggles do
store a UTC-midnight-normalized date, but pomodoro-kind events created by
session completion store the raw completion timestamp `now` — so two
same-day events need not compare equal on their date field. -/
theorem C9_event_dates_amended (db : DB) (habitId : Option Int)
    (dateMs : Int) (c : Bool) (id now : Int) :
    (∀ ev, (calendarComplete db habitId dateMs c).1 = some ev →
      ev.type = "habit" ∧ ev.date = midnightUTC dateMs ∧
      ev.date % msPerDay = 0) ∧
    (∀ s db', completeSession db id now = .ok (s, db') →
      ∀ e ∈ db'.events, e ∈ db.events ∨
        (e.type = "pomodoro" ∧ e.date = now)) := by
  constructor
  · intro ev hev
    match habitId with
    | some hid =>
        by_cases hh : habitExists db hid = true
        · simp only [calendarComplete, hh, if_true] at hev
          injection hev with hev
          subst hev
          exact ⟨rfl, rfl, midnightUTC_emod dateMs⟩
        · simp [calendarComplete, Bool.eq_false_iff.mpr hh] at hev
    | none =>
        by_cases hup : (db.stats.any (fun r =>
            r.habitId == 0 && r.date == midnightUTC dateMs)
              || habitExists db 0) = true
        · simp only [calendarComplete, hup, if_true] at hev
          injection hev with hev
          subst hev
          exact ⟨rfl, rfl, midnightUTC_emod dateMs⟩
        · simp [calendarComplete, Bool.eq_false_iff.mpr hup] at hev
  · intro s db' hok e he
    cases hf : db.sessions.find? (fun t => t.id == id) with
    | none =>
        simp only [completeSession, hf] at hok
        exact absurd hok (by simp)
    | some existing =>
        simp only [completeSession, hf] at hok
        by_cases hact : (existing.status != "active") = true
        · rw [if_pos hact] at hok
          exact absurd hok (by simp)
        · rw [if_neg hact] at hok
          cases hh : existing.habitId with
          | some hid =>
              simp only [hh] at hok
              injection hok with hok
              have hdb' : db' = _ := (congrArg Prod.snd hok).symm
              rw [hdb'] at he
              rcases List.mem_append.mp he with hl | hr
              · exact Or.inl hl
              · right
                have hev : e = { habitId := some hid
                                 title := "Pomodoro: Completed"
                                 date := now
                                 completed := true
                                 type := "pomodoro"
                                 duration :=
                                   some ((now - existing.start).fdiv 1000) } := by
                  simpa using hr
                rw [hev]
                exact ⟨rfl, rfl⟩
          | none =>
              simp only [hh] at hok
              injection hok with hok
              have hdb' : db' = _ := (congrArg Prod.snd hok).symm
              rw [hdb'] at he
              exact Or.inl he

/-- Witness for `C9_event_dates_amended` on concrete inputs: the toggle
event is midnight-normalized, the pomodoro event keeps the raw
timestamp. -/
theorem C9_event_dates_amended_witness :
    (∃ ev, (calendarComplete dbHabit1 (some 1) 90000000 true).1 = some ev ∧
      ev.type = "habit" ∧ ev.date = midnightUTC 90000000 ∧
      ev.date % msPerDay = 0) ∧
    (∃ s db', completeSession dbPomodoro 1 90000000 = .ok (s, db') ∧
      ∀ e ∈ db'.events, e ∈ dbPomodoro.events ∨
        (e.type = "pomodoro" ∧ e.date = 90000000)) := by
  constructor
  · have hsome : ∃ ev,
        (calendarComplete dbHabit1 (some 1) 90000000 true).1 = some ev :=
      ⟨_, rfl⟩
    obtain ⟨ev, hev⟩ := hsome
    exact ⟨ev, hev,
      (C9_event_dates_amended dbHabit1 (some 1) 90000000 true 0 0).1 ev hev⟩
  · have hsome : ∃ s db',
        completeSession dbPomodoro 1 90000000 = .ok (s, db') :=
      ⟨_, _, rfl⟩
    obtain ⟨s, db', hok⟩ := hsome
    exact ⟨s, db', hok,
      (C9_event_dates_amended dbPomodoro none 0 true 1 90000000).2 s db' hok⟩

/-- A calendar event as the Dashboard's streak walk reads it from the
month endpoint (grouped per day; only the consulted fields).  `day` is the
calendar-day index of the event's date — habit events sit at UTC midnight,
so the server's grouping by ISO date string is exact. -/
structure DashEvent where
  habitId : Option Int
  type : String
  completed : Bool
  day : Int
deriving DecidableEq, Repr

/-- JS object assignment `habitMap[k] = v`: replace the entry when the key
is present, else append it. -/
def insertOrReplace (m : List (Int × DashEvent)) (k : Int) (v : DashEvent) :
    List (Int × DashEvent) :=
  if m.any (fun p => p.1 == k) then
    m.map (fun p => if p.1 == k then (k, v) else p)
  else m ++ [(k, v)]

/-- The Dashboard's per-day habit map:
`events.forEach(e => { if (e.habitId) habitMap[e.habitId] = e })` — the
last event per habit wins, events without a habit are skipped. -/
def buildHabitMap (evs : List DashEvent) : List (Int × DashEvent) :=
  evs.foldl (fun m e =>
    match e.habitId with
    | some hid => insertOrReplace m hid e
    | none => m) []

/-- `Object.values(habitMap)` over the habit-kind events of day `d`. -/
def habitsForDay (evs : List DashEvent) (d : Int) : List DashEvent :=
  (buildHabitMap (evs.filter (fun e => e.type == "habit" && e.day == d))).map
    (fun p => p.2)

/-- One day's verdict in the streak walk: `none` when the day has no
per-habit events (`habitsForDay.length === 0`, the loop breaks), else
`some` of `habitsForDay.every(e => e.completed)`. -/
def dayAllComplete (evs : List DashEvent) (d : Int) : Option Bool :=
  let hs := habitsForDay evs d
  if hs.isEmpty then none
  else some (hs.all (fun e => e.completed))

/-- The fuelled backward walk of `getStreak`. -/
def streakGo (evs : List DashEvent) : Int → Nat → Nat
  | _, 0 => 0
  | d, n + 1 =>
      match dayAllComplete evs d with
      | some true => 1 + streakGo evs (d - 1) n
      | _ => 0

/-- `getStreak` (Dashboard.tsx): starting at today (`i = 0`) and walking
backward day by day, count a day and continue while every habit event of
the day is completed; return the counter at the first day that fails or
has no habit events.  The source loop is unbounded with a `break`; every
counted day needs at least one event and the walked days are pairwise
distinct, so `evs.length + 1` fuel always reaches the break
(`streakGo_lt` below) and the fuelled recursion equals the loop. -/
def getStreak (evs : List DashEvent) (today : Int) : Nat :=
  streakGo evs today (evs.length + 1)

theorem streakGo_le (evs : List DashEvent) :
    ∀ (n : Nat) (d : Int), streakGo evs d n ≤ n := by
  intro n
  induction n with
  | zero => intro d; simp [streakGo]
  | succ n ih =>
      intro d
      cases hd : dayAllComplete evs d with
      | none => simp [streakGo, hd]
      | some b =>
          cases b
          · simp [streakGo, hd]
          · simp only [streakGo, hd]
            have := ih (d - 1)
            omega

/-- Every day the walk counted was fully complete. -/
theorem streakGo_prefix (evs : List DashEvent) :
    ∀ (n : Nat) (d : Int) (i : Nat), i < streakGo evs d n →
      dayAllComplete evs (d - (i : Int)) = some true := by
  intro n
  induction n with
  | zero =>
      intro d i h
      exact absurd h (by simp [streakGo])
  | succ n ih =>
      intro d i h
      cases hd : dayAllComplete evs d with
      | none =>
          simp only [streakGo, hd] at h
          exact absurd h (by omega)
      | some b =>
          cases b
          · simp only [streakGo, hd] at h
            exact absurd h (by omega)
          · simp only [streakGo, hd] at h
            cases i with
            | zero => simpa using hd
            | succ j =>
                have hj : j < streakGo evs (d - 1) n := by omega
                have hprev := ih (d - 1) j hj
                have heq : d - 1 - (j : Int) = d - (((j + 1 : Nat)) : Int) := by
                  push_cast
                  ring
                rw [heq] at hprev
                exact hprev

/-- A day with a verdict has at least one habit event, hence its day value
occurs in the event list. -/
theorem dayAllComplete_mem (evs : List DashEvent) (d : Int) (b : Bool)
    (h : dayAllComplete evs d = some b) :
    d ∈ evs.map (fun e => e.day) := by
  unfold dayAllComplete at h
  by_cases he : (habitsForDay evs d).isEmpty = true
  · rw [if_pos he] at h
    exact absurd h (by simp)
  · have hne : evs.filter (fun e => e.type == "habit" && e.day == d) ≠ [] := by
      intro hnil
      apply he
      unfold habitsForDay
      rw [hnil]
      rfl
    obtain ⟨e, hmem⟩ := List.exists_mem_of_ne_nil _ hne
    have hm := List.mem_filter.mp hmem
    have hday : (e.day == d) = true := by
      have hb := hm.2
      simp only [Bool.and_eq_true] at hb
      exact hb.2
    exact List.mem_map.mpr ⟨e, hm.1, beq_iff_eq.mp hday⟩

/-- Pigeonhole: with `evs.length + 1` fuel the walk always reaches its
break before exhausting the fuel — each counted day is distinct and needs
an event of its own. -/
theorem streakGo_lt (evs : List DashEvent) (d : Int) :
    streakGo evs d (evs.length + 1) < evs.length + 1 := by
  by_contra hc
  push_neg at hc
  have hle := streakGo_le evs (evs.length + 1) d
  have heq : streakGo evs d (evs.length + 1) = evs.length + 1 :=
    le_antisymm hle hc
  have hall : ∀ i : Nat, i < evs.length + 1 →
      dayAllComplete evs (d - (i : Int)) = some true := by
    intro i hi
    refine streakGo_prefix evs (evs.length + 1) d i ?_
    rw [heq]
    exact hi
  have hsub : ((List.range (evs.length + 1)).map
        (fun i : Nat => d - (i : Int))) ⊆ evs.map (fun e => e.day) := by
    intro x hx
    obtain ⟨i, hi, rfl⟩ := List.mem_map.mp hx
    exact dayAllComplete_mem evs _ true (hall i (List.mem_range.mp hi))
  have hnodup :
      ((List.range (evs.length + 1)).map
        (fun i : Nat => d - (i : Int))).Nodup := by
    refine List.Nodup.map ?_ (List.nodup_range _)
    intro a b hab
    have hab2 : d - (a : Int) = d - (b : Int) := hab
    have hab' : (a : Int) = b := by omega
    exact_mod_cast hab'
  have hlen := (List.subperm_of_subset hnodup hsub).length_le
  simp only [List.length_map, List.length_range] at hlen
  omega

/-- The walk stops at a day that is not fully complete (either reported
incomplete or without habit events). -/
theorem streakGo_stop (evs : List DashEvent) :
    ∀ (n : Nat) (d : Int), streakGo evs d n < n →
      dayAllComplete evs (d - (streakGo evs d n : Int)) ≠ some true := by
  intro n
  induction n with
  | zero =>
      intro d h
      exact absurd h (by omega)
  | succ n ih =>
      intro d h
      cases hd : dayAllComplete evs d with
      | none => simp [streakGo, hd]
      | some b =>
          cases b
          · simp [streakGo, hd]
          · have hs : streakGo evs (d - 1) n < n := by
              simp only [streakGo, hd] at h
              omega
            have hstop := ih (d - 1) hs
            simp only [streakGo, hd]
            have heq : d - (((1 + streakGo evs (d - 1) n : Nat)) : Int) =
                d - 1 - (streakGo evs (d - 1) n : Int) := by
              push_cast
              ring
            rw [heq]
            exact hstop

/-- A log where today's (day 10) only habit event is completed and
yesterday's (day 9) is not. -/
def evsTodayYesNo : List DashEvent :=
  [{ habitId := some 1, type := "habit", completed := true, day := 10 },
   { habitId := some 1, type := "habit", completed := false, day := 9 }]

/-- Claim C6 (counterexample): the claim says `currentStreak` returns 0
whenever yesterday's applicable habits were not all complete, even if all
of today's are.  The code counts today first: with today fully complete
and yesterday not, `getStreak` returns 1, not 0. -/
theorem C6_streak_counterexample :
    dayAllComplete evsTodayYesNo 10 = some true ∧
    dayAllComplete evsTodayYesNo 9 = some false ∧
    getStreak evsTodayYesNo 10 = 1 := by
  decide

/-- Claim C6 (amended): the walk starts at the reference day itself, so a
complete today over an incomplete yesterday yields 1 (today is counted);
in general every counted day `today - i` (for `i < getStreak`) is fully
complete, and the walk stops exactly at the first day that is not fully
complete or has zero applicable habits — a zero-habit day breaks the
streak rather than counting as vacuously true. -/
theorem C6_streak_amended (evs : List DashEvent) (today : Int) :
    (∀ i : Nat, i < getStreak evs today →
      dayAllComplete evs (today - (i : Int)) = some true) ∧
    dayAllComplete evs (today - (getStreak evs today : Int)) ≠ some true := by
  constructor
  · intro i hi
    exact streakGo_prefix evs (evs.length + 1) today i hi
  · exact streakGo_stop evs (evs.length + 1) today (streakGo_lt evs today)

/-- Witness for `C6_streak_amended` on the concrete two-day log. -/
theorem C6_streak_amended_witness :
    dayAllComplete evsTodayYesNo (10 - ((0 : Nat) : Int)) = some true ∧
    dayAllComplete evsTodayYesNo
      (10 - (getStreak evsTodayYesNo 10 : Int)) ≠ some true :=
  ⟨(C6_streak_amended evsTodayYesNo 10).1 0 (by decide),
   (C6_streak_amended evsTodayYesNo 10).2⟩

end WizHBT
